import Mathlib

/-!
Verification development for a temporary-voice-channel manager bot
(`src/main.rs`, `src/handler/mod.rs`, `src/utils/mod.rs`).

The bot tracks temporary voice channels in a shared map
`temp_channels : HashMap<ChannelId, ChannelInfo>`.  A voice-state
notification is processed in three phases by `voice_state_update`:
join-creator (provision a personal channel), leave-tracked (schedule a
delayed deletion when the left channel is empty), and join-tracked
(cancel a pending deletion when somebody joins a tracked channel).

The embedding below models the platform (Discord REST/cache) as an
oracle carried on each event: every fallible platform call the handler
makes is represented by a boolean (or optional) field of `VoiceEvent`
recording that call's outcome, and the handler's control flow is
transcribed branch by branch from the Rust source.  Spawned deletion
tasks are modelled as records in a `live_tasks` list; a task firing is
a separate transition `run_deletion_task`.
-/

namespace TempVoice

/-- Discord permission bit `MANAGE_CHANNELS` (serenity bitflag `1 << 4`). -/
def MANAGE_CHANNELS : Nat := 2 ^ 4

/-- Discord permission bit `CONNECT` (serenity bitflag `1 << 20`). -/
def CONNECT : Nat := 2 ^ 20

/-- Discord permission bit `MUTE_MEMBERS` (serenity bitflag `1 << 22`). -/
def MUTE_MEMBERS : Nat := 2 ^ 22

/-- Discord permission bit `DEAFEN_MEMBERS` (serenity bitflag `1 << 23`). -/
def DEAFEN_MEMBERS : Nat := 2 ^ 23

/-- Discord permission bit `MOVE_MEMBERS` (serenity bitflag `1 << 24`). -/
def MOVE_MEMBERS : Nat := 2 ^ 24

/-- A permission set `allows` a capability when the capability's bit is set. -/
def allows (set bit : Nat) : Prop := set &&& bit ≠ 0

/-- A permission overwrite target: a role or a single member
(serenity `PermissionOverwriteType`). -/
inductive OverwriteKind where
  | role (id : Nat)
  | member (id : Nat)
deriving DecidableEq

/-- One access-control overwrite entry (serenity `PermissionOverwrite`):
allow and deny permission bit sets for one target. -/
structure PermissionOverwrite where
  kind : OverwriteKind
  allow : Nat
  deny : Nat
deriving DecidableEq

/-- `handler/mod.rs` lines 18-22: per-channel lifecycle metadata.
`delete_task` holds the id of the most recently spawned deletion task
for this channel, if any handle is stored. -/
structure ChannelInfo where
  owner_id : Nat
  delete_task : Option Nat
deriving DecidableEq

/-- A spawned deletion task: its handle id, the channel it will delete,
and the delay it sleeps before issuing the delete request. -/
structure TaskRec where
  id : Nat
  chan : Nat
  delay : Nat
deriving DecidableEq

/-- `handler/mod.rs` lines 24-28: the handler's configuration.
The registry itself lives in `BotState`. -/
structure Handler where
  creator_channel_id : Nat
  waiting_room_id : Nat
deriving DecidableEq

/-- The mutable world: the registry (`temp_channels`, modelled as an
association list with unique keys), the set of live (spawned, neither
aborted nor completed) deletion tasks, a counter for fresh task ids,
the set of channels currently existing on the platform, and the list of
relocation requests issued so far (most recent first). -/
structure BotState where
  temp_channels : List (Nat × ChannelInfo)
  live_tasks : List TaskRec
  next_task : Nat
  platform_channels : List Nat
  moves : List (Nat × Nat)
deriving DecidableEq

/-- One voice-state notification together with the outcomes of every
platform call the handler would make while processing it.  Fields
`user`, `old_channel`, `new_channel`, `guild_present`, `member_present`
describe the notification itself (`new.member`, `new.guild_id` and the
two channel ids); the remaining fields are the oracle for the cache
lookups and REST calls, in source order. -/
structure VoiceEvent where
  user : Nat
  old_channel : Option Nat
  new_channel : Option Nat
  guild_present : Bool
  guild_cached : Bool
  bot_member_ok : Bool
  perms_resolvable : Bool
  has_manage : Bool
  member_present : Bool
  delete_old_ok : Bool
  create_ok : Bool
  new_chan_id : Nat
  grant_ok : Bool
  move_ok : Bool
  old_guild_cached : Bool
  old_chan_in_guild : Bool
  old_chan_is_guild : Bool
  members_ok : Bool
  members_empty : Bool
deriving DecidableEq

/-- Registry lookup (`HashMap::get` / `get_mut` target resolution). -/
def lookupChan (m : List (Nat × ChannelInfo)) (cid : Nat) : Option ChannelInfo :=
  (m.find? (fun p => p.1 == cid)).map Prod.snd

/-- Registry removal (`HashMap::remove`). -/
def removeChan (m : List (Nat × ChannelInfo)) (cid : Nat) : List (Nat × ChannelInfo) :=
  m.filter (fun p => !(p.1 == cid))

/-- Registry insertion (`HashMap::insert`, which replaces any entry
with the same key). -/
def insertChan (m : List (Nat × ChannelInfo)) (cid : Nat) (info : ChannelInfo) :
    List (Nat × ChannelInfo) :=
  (cid, info) :: removeChan m cid

/-- Overwrite the `delete_task` field of the record at key `cid`,
leaving key and owner untouched (the `get_mut` field assignments in
phases 2 and 3). -/
def setTask (m : List (Nat × ChannelInfo)) (cid : Nat) (t : Option Nat) :
    List (Nat × ChannelInfo) :=
  m.map (fun p => if p.1 == cid then (p.1, ⟨p.2.owner_id, t⟩) else p)

/-- `handler/mod.rs` lines 39-42: does any record's owner equal `u`. -/
def user_has_channel (m : List (Nat × ChannelInfo)) (u : Nat) : Bool :=
  m.any (fun p => p.2.owner_id == u)

/-- `handler/mod.rs` lines 44-50: the key of some record owned by `u`. -/
def get_user_channel (m : List (Nat × ChannelInfo)) (u : Nat) : Option Nat :=
  (m.find? (fun p => p.2.owner_id == u)).map Prod.fst

/-- `handler/mod.rs` line 173: the grace period, `Duration::from_secs(5)`. -/
def grace_period : Nat := 5

/-- `handler/mod.rs` lines 164-184 (spawn part): spawn a fresh deletion
task for `cid` sleeping `grace_period`, returning the new state and the
spawned task's handle id. -/
def schedule_channel_deletion (s : BotState) (cid : Nat) : BotState × Nat :=
  ({ s with live_tasks := ⟨s.next_task, cid, grace_period⟩ :: s.live_tasks,
            next_task := s.next_task + 1 }, s.next_task)

/-- `JoinHandle::abort`: the task with handle id `tid` stops being live.
Aborting an already-completed or already-aborted handle is a no-op. -/
def abortTask (s : BotState) (tid : Nat) : BotState :=
  { s with live_tasks := s.live_tasks.filter (fun t => !(t.id == tid)) }

/-- `handler/mod.rs` lines 172-183 (task body, executed when the timer
fires): the task completes (leaves the live set); `ok` is the outcome of
`channel_id.delete`.  On success the channel disappears from the
platform and its record is removed from the registry; on failure the
task only logs and the registry is untouched. -/
def run_deletion_task (s : BotState) (cid tid : Nat) (ok : Bool) : BotState :=
  if ok then
    { temp_channels := removeChan s.temp_channels cid,
      live_tasks := s.live_tasks.filter (fun t => !(t.id == tid)),
      next_task := s.next_task,
      platform_channels := s.platform_channels.filter (fun c => !(c == cid)),
      moves := s.moves }
  else { s with live_tasks := s.live_tasks.filter (fun t => !(t.id == tid)) }

/-- Result of `create_temp_channel`: a created guild channel id, or an
error (`SerenityError` or a non-guild channel). -/
inductive CreateResult where
  | ok (cid : Nat)
  | err
deriving DecidableEq

/-- Everyone-role overwrite built at `handler/mod.rs` lines 122-126:
allow nothing, deny `CONNECT | MOVE_MEMBERS`; the role id is the guild
id (the default role). -/
def everyone_overwrite (guild_id : Nat) : PermissionOverwrite :=
  ⟨OverwriteKind.role guild_id, 0, CONNECT ||| MOVE_MEMBERS⟩

/-- Owner overwrite built at `handler/mod.rs` lines 127-134:
allow `CONNECT | MANAGE_CHANNELS | MUTE_MEMBERS | DEAFEN_MEMBERS`, deny
nothing. -/
def owner_overwrite (owner_id : Nat) : PermissionOverwrite :=
  ⟨OverwriteKind.member owner_id,
    CONNECT ||| MANAGE_CHANNELS ||| MUTE_MEMBERS ||| DEAFEN_MEMBERS, 0⟩

/-- Bot overwrite built at `handler/mod.rs` lines 135-141:
allow `CONNECT | MOVE_MEMBERS | MANAGE_CHANNELS`, deny nothing. -/
def bot_overwrite (bot_id : Nat) : PermissionOverwrite :=
  ⟨OverwriteKind.member bot_id, CONNECT ||| MOVE_MEMBERS ||| MANAGE_CHANNELS, 0⟩

/-- The overwrite list passed to `create_channel`
(`handler/mod.rs` lines 121-142). -/
def temp_channel_overwrites (guild_id owner_id bot_id : Nat) : List PermissionOverwrite :=
  [everyone_overwrite guild_id, owner_overwrite owner_id, bot_overwrite bot_id]

/-- The single extra grant issued at `handler/mod.rs` lines 151-158:
owner is allowed `MOVE_MEMBERS`, deny nothing. -/
def waiting_room_overwrite (owner_id : Nat) : PermissionOverwrite :=
  ⟨OverwriteKind.member owner_id, MOVE_MEMBERS, 0⟩

/-- The two permission requests `create_temp_channel` issues: the
overwrite list applied to the new channel at creation, and the list of
`(target channel, overwrite)` grants issued afterwards — exactly one,
targeted at the waiting room (`handler/mod.rs` lines 118-158). -/
def create_temp_channel_requests (h : Handler) (guild_id owner_id bot_id : Nat) :
    List PermissionOverwrite × List (Nat × PermissionOverwrite) :=
  (temp_channel_overwrites guild_id owner_id bot_id,
   [(h.waiting_room_id, waiting_room_overwrite owner_id)])

/-- `handler/mod.rs` lines 99-162, state effects: if the channel create
succeeds the channel exists on the platform; the trailing
`create_permission` on the waiting room is then attempted and an error
there is propagated with `?` (the created channel stays on the
platform).  A create failure produces no channel. -/
def create_temp_channel (h : Handler) (e : VoiceEvent) (s : BotState) :
    BotState × CreateResult :=
  if e.create_ok then
    let s1 := { s with platform_channels := e.new_chan_id :: s.platform_channels }
    if e.grant_ok then (s1, CreateResult.ok e.new_chan_id) else (s1, CreateResult.err)
  else (s, CreateResult.err)

/-- `handler/mod.rs` lines 59-72: if the joining user already owns a
tracked channel, issue a platform delete for it; only when that delete
succeeds is the record removed from the registry (a delete error is
logged and the record stays). -/
def removeExistingChannel (s : BotState) (e : VoiceEvent) : BotState :=
  if user_has_channel s.temp_channels e.user then
    match get_user_channel s.temp_channels e.user with
    | some existing =>
        if e.delete_old_ok then
          { s with
              platform_channels := s.platform_channels.filter (fun c => !(c == existing)),
              temp_channels := removeChan s.temp_channels existing }
        else s
    | none => s
  else s

/-- `handler/mod.rs` lines 52-97: recycle any existing owned channel,
then create a new one; on successful creation insert a fresh record
(`delete_task = None`) and attempt to move the user (a move failure is
only logged).  On a creation error nothing is inserted and no move is
attempted.  The Rust function always returns `Ok(())`. -/
def handle_creator_channel_join (h : Handler) (e : VoiceEvent) (s : BotState) : BotState :=
  let s0 := removeExistingChannel s e
  match create_temp_channel h e s0 with
  | (s1, CreateResult.ok cid) =>
      let s2 := { s1 with temp_channels := insertChan s1.temp_channels cid ⟨e.user, none⟩ }
      { s2 with moves := (e.user, cid) :: s2.moves }
  | (s1, CreateResult.err) => s1

/-- `handler/mod.rs` lines 195-245 (join-creator phase).  The returned
flag is `true` exactly when the Rust code executes `return`, i.e. when
the dispatcher stops processing this notification: missing `guild_id`
(line 199), guild not cached (line 207), bot member fetch error
(line 216), missing manage-channels permission (line 224), or missing
member data (line 229). -/
def phase1 (h : Handler) (e : VoiceEvent) (s : BotState) : BotState × Bool :=
  match e.new_channel with
  | none => (s, false)
  | some cid =>
    if cid == h.creator_channel_id then
      if e.guild_present then
        if e.guild_cached then
          if e.bot_member_ok then
            if e.perms_resolvable && e.has_manage then
              if e.member_present then
                (handle_creator_channel_join h e s, false)
              else (s, true)
            else (s, true)
          else (s, true)
        else (s, true)
      else (s, true)
    else (s, false)

/-- `Option::take` followed by `JoinHandle::abort` on the taken handle,
when one was stored (`handler/mod.rs` lines 272-274). -/
def abortOpt (s : BotState) : Option Nat → BotState
  | some tid => abortTask s tid
  | none => s

/-- `handler/mod.rs` lines 266-284: take and abort any stored deletion
task handle, spawn a fresh countdown, and store its handle in the
record. -/
def scheduleFresh (s : BotState) (ocid : Nat) (info : ChannelInfo) : BotState :=
  let s1 := abortOpt s info.delete_task
  let s2 := (schedule_channel_deletion s1 ocid).1
  let ntid := (schedule_channel_deletion s1 ocid).2
  { s2 with temp_channels := setTask s2.temp_channels ocid (some ntid) }

/-- `handler/mod.rs` lines 247-297 (leave-tracked phase).  The returned
flag is `true` exactly when the Rust code executes `return`: old guild
not cached (line 257) or old channel absent from `guild.channels`
(line 293).  A non-guild channel kind or a member-list fetch error is
only logged; a non-empty channel does nothing. -/
def phase2 (h : Handler) (e : VoiceEvent) (s : BotState) : BotState × Bool :=
  match e.old_channel with
  | none => (s, false)
  | some ocid =>
    match lookupChan s.temp_channels ocid with
    | none => (s, false)
    | some info =>
      if e.old_guild_cached then
        if e.old_chan_in_guild then
          if e.old_chan_is_guild then
            if e.members_ok then
              if e.members_empty then (scheduleFresh s ocid info, false)
              else (s, false)
            else (s, false)
          else (s, false)
        else (s, true)
      else (s, true)

/-- `handler/mod.rs` lines 299-308 (join-tracked phase): if the new
channel is tracked and its record stores a deletion task handle, take
and abort it; the record stays with `delete_task = None`. -/
def phase3 (h : Handler) (e : VoiceEvent) (s : BotState) : BotState :=
  match e.new_channel with
  | none => s
  | some ncid =>
    match lookupChan s.temp_channels ncid with
    | none => s
    | some info =>
      match info.delete_task with
      | none => s
      | some tid =>
          let s1 := abortTask s tid
          { s1 with temp_channels := setTask s1.temp_channels ncid none }

/-- `handler/mod.rs` lines 194-309: the full dispatcher.  The three
phases are the three consecutive blocks of the Rust function; an early
`return` inside phase 1 or phase 2 stops the whole notification. -/
def voice_state_update (h : Handler) (s : BotState) (e : VoiceEvent) : BotState :=
  if (phase1 h e s).2 then (phase1 h e s).1
  else if (phase2 h e (phase1 h e s).1).2 then (phase2 h e (phase1 h e s).1).1
  else phase3 h e (phase2 h e (phase1 h e s).1).1

/-- Modelled from the spec: §4.5 claims all three phases run for every
notification ("Any failure at any step is logged; the notification is
still fully processed").  This runs the phase bodies unconditionally,
ignoring the early-return flags, for comparison with
`voice_state_update`. -/
def spec_run_all_phases (h : Handler) (s : BotState) (e : VoiceEvent) : BotState :=
  phase3 h e (phase2 h e (phase1 h e s).1).1

/-- Fold a sequence of notifications through the dispatcher. -/
def runEvents (h : Handler) (s : BotState) (es : List VoiceEvent) : BotState :=
  es.foldl (voice_state_update h) s

/-- Outcomes of the three resolution steps inside
`utils/mod.rs::check_permissions`: is the guild in the cache, did the
bot member fetch succeed, and the bot's effective permission bits when
computable. -/
structure PermCtx where
  guild_cached : Bool
  member_ok : Bool
  perms : Option Nat
deriving DecidableEq

/-- serenity `Permissions::manage_channels()`: the `MANAGE_CHANNELS`
bit is set. -/
def manage_channels_bit (p : Nat) : Bool := p &&& MANAGE_CHANNELS != 0

/-- `utils/mod.rs` lines 3-16: guild cache lookup, bot member fetch,
then `permissions(..).map_or(false, |p| p.manage_channels())`. -/
def check_permissions (c : PermCtx) : Bool :=
  if c.guild_cached then
    if c.member_ok then
      match c.perms with
      | some p => manage_channels_bit p
      | none => false
    else false
  else false

/-- Number of registry records owned by `u`. -/
def ownerCount (m : List (Nat × ChannelInfo)) (u : Nat) : Nat :=
  m.countP (fun p => p.2.owner_id == u)

/-- At most one registry record per owner identity. -/
def OwnerUnique (m : List (Nat × ChannelInfo)) : Prop :=
  ∀ u : Nat, ownerCount m u ≤ 1

/-- No two live deletion tasks target the same channel. -/
def livePairwise (s : BotState) : Prop :=
  s.live_tasks.Pairwise (fun t u => t.chan ≠ u.chan)

/-- Every live deletion task targeting a tracked channel is the task
whose handle that channel's record stores. -/
def liveMatchesRecord (s : BotState) : Prop :=
  ∀ t ∈ s.live_tasks, ∀ p ∈ s.temp_channels, t.chan = p.1 → p.2.delete_task = some t.id

/-- Registry keys are distinct (the `HashMap` key-uniqueness). -/
def keysNodup (s : BotState) : Prop :=
  (s.temp_channels.map Prod.fst).Nodup

/-- The deletion-scheduler invariant: at most one live countdown per
channel, live countdowns are the ones recorded in the registry, and
registry keys are unique. -/
def TaskInv (s : BotState) : Prop :=
  livePairwise s ∧ liveMatchesRecord s ∧ keysNodup s

/-- A notification whose created-channel id is fresh: no live task
targets it (platform channel ids are fresh snowflakes, never reused
while a deletion task for the old incarnation could still be live). -/
def FreshId (s : BotState) (e : VoiceEvent) : Prop :=
  ∀ t ∈ s.live_tasks, t.chan ≠ e.new_chan_id

/-- Key and owner of a registry entry — everything except the
`delete_task` field. -/
def keyOwner (p : Nat × ChannelInfo) : Nat × Nat := (p.1, p.2.owner_id)

/-- Concrete handler: creator channel 100, waiting room 200. -/
def hC : Handler := ⟨100, 200⟩

/-- Concrete initial state: nothing tracked, nothing live. -/
def sEmpty : BotState := ⟨[], [], 0, [], []⟩

/-- Concrete notification: user 7 joins the creator channel and every
platform call succeeds; the created channel gets id 1. -/
def eJoin1 : VoiceEvent :=
  { user := 7, old_channel := none, new_channel := some 100,
    guild_present := true, guild_cached := true, bot_member_ok := true,
    perms_resolvable := true, has_manage := true, member_present := true,
    delete_old_ok := true, create_ok := true, new_chan_id := 1, grant_ok := true,
    move_ok := true, old_guild_cached := false, old_chan_in_guild := false,
    old_chan_is_guild := false, members_ok := false, members_empty := false }

/-- Concrete notification: user 7 joins the creator channel again, but
the platform delete of the previously owned channel fails; the new
channel gets id 2. -/
def eJoin2 : VoiceEvent := { eJoin1 with delete_old_ok := false, new_chan_id := 2 }

/-- Concrete state: channel 5 (owned by user 7, no pending deletion) is
tracked and exists on the platform. -/
def sA : BotState := ⟨[(5, ⟨7, none⟩)], [], 0, [5], []⟩

/-- Concrete notification: user 9 moves from tracked channel 5 into the
creator channel, but the guild is not in the cache, so the join-creator
phase fails at its guild-cache resolution step; channel 5 is left empty
and all leave-tracked resolution steps would succeed. -/
def eC2 : VoiceEvent :=
  { user := 9, old_channel := some 5, new_channel := some 100,
    guild_present := true, guild_cached := false, bot_member_ok := false,
    perms_resolvable := false, has_manage := false, member_present := false,
    delete_old_ok := false, create_ok := false, new_chan_id := 0, grant_ok := false,
    move_ok := false, old_guild_cached := true, old_chan_in_guild := true,
    old_chan_is_guild := true, members_ok := true, members_empty := true }

/-- Concrete notification: user 9 joins the creator channel, the guild
and bot member resolve, but the bot lacks the manage-channels
permission. -/
def eGateDeny : VoiceEvent :=
  { eC2 with guild_cached := true, bot_member_ok := true, perms_resolvable := true,
             old_channel := none }

/-- Concrete notification: user 7 joins the creator channel, the voice
channel create succeeds (id 3) but the waiting-room permission grant
fails. -/
def eGrantFail : VoiceEvent := { eJoin1 with grant_ok := false, new_chan_id := 3 }

/-- Concrete notification: user 7 leaves tracked channel 5 (joining no
channel), channel 5 is empty, and all leave-tracked resolution steps
succeed. -/
def eLeave : VoiceEvent :=
  { user := 7, old_channel := some 5, new_channel := none,
    guild_present := false, guild_cached := false, bot_member_ok := false,
    perms_resolvable := false, has_manage := false, member_present := false,
    delete_old_ok := false, create_ok := false, new_chan_id := 0, grant_ok := false,
    move_ok := false, old_guild_cached := true, old_chan_in_guild := true,
    old_chan_is_guild := true, members_ok := true, members_empty := true }

/-- Concrete state: channel 5 (owned by user 7) is tracked with a
pending deletion task 0 that is live. -/
def sB : BotState := ⟨[(5, ⟨7, some 0⟩)], [⟨0, 5, 5⟩], 1, [5], []⟩

/-- Concrete notification: user 7 joins tracked channel 5 (coming from
nowhere). -/
def eRejoin : VoiceEvent := { eLeave with old_channel := none, new_channel := some 5 }

/-! ### Helper lemmas about the registry association list -/

theorem lookupChan_cons (q : Nat × ChannelInfo) (m : List (Nat × ChannelInfo)) (c : Nat) :
    lookupChan (q :: m) c = if q.1 == c then some q.2 else lookupChan m c := by
  by_cases h : (q.1 == c) = true
  · rw [if_pos h]
    unfold lookupChan
    rw [@List.find?_cons_of_pos (Nat × ChannelInfo) (fun p => p.1 == c) q m h]
    rfl
  · rw [if_neg h]
    unfold lookupChan
    rw [@List.find?_cons_of_neg (Nat × ChannelInfo) (fun p => p.1 == c) q m h]

theorem lookupChan_none_iff (m : List (Nat × ChannelInfo)) (c : Nat) :
    lookupChan m c = none ↔ ∀ p ∈ m, p.1 ≠ c := by
  unfold lookupChan
  rw [Option.map_eq_none', List.find?_eq_none]
  simp

theorem mem_of_lookupChan {m : List (Nat × ChannelInfo)} {c : Nat} {i : ChannelInfo}
    (h : lookupChan m c = some i) : (c, i) ∈ m := by
  unfold lookupChan at h
  obtain ⟨q, hq, hqi⟩ := Option.map_eq_some'.mp h
  have hqm := List.mem_of_find?_eq_some hq
  have hqc : q.1 = c := by simpa using List.find?_some hq
  obtain ⟨q1, q2⟩ := q
  simp only at hqc hqi
  rw [← hqc, ← hqi]
  exact hqm

theorem lookupChan_of_mem_nodup {m : List (Nat × ChannelInfo)}
    (hnd : (m.map Prod.fst).Nodup) {p : Nat × ChannelInfo} (hp : p ∈ m) :
    lookupChan m p.1 = some p.2 := by
  induction m with
  | nil => cases hp
  | cons q t ih =>
    rcases List.mem_cons.mp hp with rfl | hp'
    · rw [lookupChan_cons, if_pos (by simp)]
    · rw [List.map_cons] at hnd
      obtain ⟨hq0, hnd'⟩ := List.nodup_cons.mp hnd
      have hq1 : q.1 ≠ p.1 := by
        intro heq
        exact hq0 (heq ▸ List.mem_map_of_mem Prod.fst hp')
      rw [lookupChan_cons, if_neg (by simpa using hq1)]
      exact ih hnd' hp'

theorem setTask_fun_keyOwner (c : Nat) (t : Option Nat) (p : Nat × ChannelInfo) :
    keyOwner (if p.1 == c then (p.1, ⟨p.2.owner_id, t⟩) else p) = keyOwner p := by
  by_cases h : (p.1 == c) = true <;> simp [h, keyOwner]

theorem map_keyOwner_setTask (m : List (Nat × ChannelInfo)) (c : Nat) (t : Option Nat) :
    (setTask m c t).map keyOwner = m.map keyOwner := by
  unfold setTask
  rw [List.map_map]
  exact List.map_congr_left (fun p _ => setTask_fun_keyOwner c t p)

theorem map_fst_of_map_keyOwner {m m' : List (Nat × ChannelInfo)}
    (h : m'.map keyOwner = m.map keyOwner) :
    m'.map Prod.fst = m.map Prod.fst := by
  have h1 : (m'.map keyOwner).map Prod.fst = (m.map keyOwner).map Prod.fst := by rw [h]
  simpa [List.map_map, keyOwner, Function.comp] using h1

theorem map_fst_setTask (m : List (Nat × ChannelInfo)) (c : Nat) (t : Option Nat) :
    (setTask m c t).map Prod.fst = m.map Prod.fst :=
  map_fst_of_map_keyOwner (map_keyOwner_setTask m c t)

theorem lookupChan_setTask (m : List (Nat × ChannelInfo)) (c : Nat) (t : Option Nat) :
    lookupChan (setTask m c t) c = (lookupChan m c).map (fun i => ⟨i.owner_id, t⟩) := by
  induction m with
  | nil => rfl
  | cons q l ih =>
    by_cases h : (q.1 == c) = true
    · simp only [setTask, List.map_cons, if_pos h]
      rw [lookupChan_cons, lookupChan_cons, if_pos h, if_pos h]
      rfl
    · simp only [setTask, List.map_cons, if_neg h]
      rw [lookupChan_cons, lookupChan_cons, if_neg h, if_neg h]
      exact ih

theorem ownerCount_eq_of_map {m m' : List (Nat × ChannelInfo)}
    (hmap : m'.map keyOwner = m.map keyOwner) (u : Nat) :
    ownerCount m' u = ownerCount m u := by
  unfold ownerCount
  calc m'.countP (fun p => p.2.owner_id == u)
      = m'.countP ((fun q : Nat × Nat => q.2 == u) ∘ keyOwner) := rfl
    _ = (m'.map keyOwner).countP (fun q => q.2 == u) := (List.countP_map _ _ _).symm
    _ = (m.map keyOwner).countP (fun q => q.2 == u) := by rw [hmap]
    _ = m.countP ((fun q : Nat × Nat => q.2 == u) ∘ keyOwner) := List.countP_map _ _ _
    _ = m.countP (fun p => p.2.owner_id == u) := rfl

theorem countP_filter_le (p q : (Nat × ChannelInfo) → Bool) (l : List (Nat × ChannelInfo)) :
    (l.filter q).countP p ≤ l.countP p := by
  induction l with
  | nil => simp
  | cons a t ih =>
    by_cases hq : q a = true <;> by_cases hp : p a = true <;>
      simp [List.filter_cons, List.countP_cons, hq, hp] <;> omega

theorem two_le_countP {α : Type} (p : α → Bool) {l : List α} {a b : α}
    (ha : a ∈ l) (hb : b ∈ l) (hab : a ≠ b) (hpa : p a = true) (hpb : p b = true) :
    2 ≤ l.countP p := by
  induction l with
  | nil => cases ha
  | cons x t ih =>
    rw [List.countP_cons]
    rcases List.mem_cons.mp ha with rfl | ha'
    · rcases List.mem_cons.mp hb with rfl | hb'
      · exact absurd rfl hab
      · have h1 : 0 < t.countP p := List.countP_pos_iff.mpr ⟨b, hb', hpb⟩
        simp only [hpa, if_true]
        omega
    · rcases List.mem_cons.mp hb with rfl | hb'
      · have h1 : 0 < t.countP p := List.countP_pos_iff.mpr ⟨a, ha', hpa⟩
        simp only [hpb, if_true]
        omega
      · have := ih ha' hb'
        omega

/-! ### State-shape lemmas for the dispatcher phases -/

theorem abortOpt_temp (s : BotState) (d : Option Nat) :
    (abortOpt s d).temp_channels = s.temp_channels := by
  cases d <;> rfl

theorem abortOpt_live_sublist (s : BotState) (d : Option Nat) :
    List.Sublist (abortOpt s d).live_tasks s.live_tasks := by
  cases d with
  | none => exact List.Sublist.refl _
  | some tid => exact List.filter_sublist _

theorem scheduleFresh_eq (s : BotState) (ocid : Nat) (info : ChannelInfo) :
    scheduleFresh s ocid info =
      { temp_channels := setTask s.temp_channels ocid (some s.next_task),
        live_tasks := ⟨s.next_task, ocid, grace_period⟩ :: (abortOpt s info.delete_task).live_tasks,
        next_task := s.next_task + 1,
        platform_channels := s.platform_channels,
        moves := s.moves } := by
  obtain ⟨ow, d⟩ := info
  cases d <;> rfl

theorem phase1_state_cases (h : Handler) (e : VoiceEvent) (s : BotState) :
    (phase1 h e s).1 = s ∨ (phase1 h e s).1 = handle_creator_channel_join h e s := by
  cases hn : e.new_channel with
  | none => exact Or.inl (by simp [phase1, hn])
  | some c =>
    simp only [phase1, hn]
    split_ifs <;> first | exact Or.inl rfl | exact Or.inr rfl

theorem phase2_state_cases (h : Handler) (e : VoiceEvent) (s : BotState) :
    (phase2 h e s).1 = s ∨
    ∃ ocid info, e.old_channel = some ocid ∧ lookupChan s.temp_channels ocid = some info ∧
      (phase2 h e s).1 = scheduleFresh s ocid info := by
  cases ho : e.old_channel with
  | none => exact Or.inl (by simp [phase2, ho])
  | some ocid =>
    cases hl : lookupChan s.temp_channels ocid with
    | none => exact Or.inl (by simp [phase2, ho, hl])
    | some info =>
      simp only [phase2, ho, hl]
      split_ifs <;> first
        | exact Or.inl rfl
        | exact Or.inr ⟨ocid, info, rfl, hl, rfl⟩

theorem phase3_state_cases (h : Handler) (e : VoiceEvent) (s : BotState) :
    phase3 h e s = s ∨
    ∃ ncid info tid, e.new_channel = some ncid ∧
      lookupChan s.temp_channels ncid = some info ∧ info.delete_task = some tid ∧
      phase3 h e s =
        { temp_channels := setTask s.temp_channels ncid none,
          live_tasks := s.live_tasks.filter (fun t => !(t.id == tid)),
          next_task := s.next_task,
          platform_channels := s.platform_channels,
          moves := s.moves } := by
  cases hn : e.new_channel with
  | none => exact Or.inl (by simp [phase3, hn])
  | some ncid =>
    cases hl : lookupChan s.temp_channels ncid with
    | none => exact Or.inl (by simp [phase3, hn, hl])
    | some info =>
      cases hd : info.delete_task with
      | none => exact Or.inl (by simp [phase3, hn, hl, hd])
      | some tid =>
        refine Or.inr ⟨ncid, info, tid, rfl, hl, hd, ?_⟩
        simp [phase3, hn, hl, hd, abortTask]

theorem phase2_frame (h : Handler) (e : VoiceEvent) (s : BotState) :
    (phase2 h e s).1.temp_channels.map keyOwner = s.temp_channels.map keyOwner ∧
    (phase2 h e s).1.platform_channels = s.platform_channels ∧
    (phase2 h e s).1.moves = s.moves := by
  rcases phase2_state_cases h e s with heq | ⟨ocid, info, _, _, heq⟩ <;> rw [heq]
  · exact ⟨rfl, rfl, rfl⟩
  · rw [scheduleFresh_eq]
    exact ⟨map_keyOwner_setTask _ _ _, rfl, rfl⟩

theorem phase3_frame (h : Handler) (e : VoiceEvent) (s : BotState) :
    (phase3 h e s).temp_channels.map keyOwner = s.temp_channels.map keyOwner ∧
    (phase3 h e s).platform_channels = s.platform_channels ∧
    (phase3 h e s).moves = s.moves := by
  rcases phase3_state_cases h e s with heq | ⟨ncid, info, tid, _, _, _, heq⟩ <;> rw [heq]
  · exact ⟨rfl, rfl, rfl⟩
  · exact ⟨map_keyOwner_setTask _ _ _, rfl, rfl⟩

theorem removeExisting_live (s : BotState) (e : VoiceEvent) :
    (removeExistingChannel s e).live_tasks = s.live_tasks := by
  unfold removeExistingChannel
  split_ifs <;> first | rfl | (split <;> rfl)

theorem removeExisting_moves (s : BotState) (e : VoiceEvent) :
    (removeExistingChannel s e).moves = s.moves := by
  unfold removeExistingChannel
  split_ifs <;> first | rfl | (split <;> rfl)

theorem removeExisting_next (s : BotState) (e : VoiceEvent) :
    (removeExistingChannel s e).next_task = s.next_task := by
  unfold removeExistingChannel
  split_ifs <;> first | rfl | (split <;> rfl)

theorem removeExisting_temp_sublist (s : BotState) (e : VoiceEvent) :
    List.Sublist (removeExistingChannel s e).temp_channels s.temp_channels := by
  unfold removeExistingChannel
  split_ifs <;> first
    | exact List.Sublist.refl _
    | (split <;> first | exact List.filter_sublist _ | exact List.Sublist.refl _)

/-! ### Owner-count lemmas -/

theorem find_of_has {m : List (Nat × ChannelInfo)} {u : Nat}
    (h : user_has_channel m u = true) :
    ∃ q, m.find? (fun p => p.2.owner_id == u) = some q := by
  unfold user_has_channel at h
  obtain ⟨x, hx, hpx⟩ := List.any_eq_true.mp h
  have hs : (m.find? (fun p => p.2.owner_id == u)).isSome := by
    rw [List.find?_isSome]
    exact ⟨x, hx, hpx⟩
  exact Option.isSome_iff_exists.mp hs

theorem ownerCount_zero_of_not_has {m : List (Nat × ChannelInfo)} {u : Nat}
    (h : user_has_channel m u = false) :
    ownerCount m u = 0 := by
  unfold user_has_channel at h
  unfold ownerCount
  rw [List.countP_eq_zero]
  intro a ha hpa
  have htrue : m.any (fun p => p.2.owner_id == u) = true :=
    List.any_eq_true.mpr ⟨a, ha, hpa⟩
  rw [h] at htrue
  cases htrue

theorem ownerCount_remove_found {m : List (Nat × ChannelInfo)} {u : Nat}
    {q : Nat × ChannelInfo}
    (hfind : m.find? (fun p => p.2.owner_id == u) = some q)
    (hu : ownerCount m u ≤ 1) :
    ownerCount (removeChan m q.1) u = 0 := by
  by_contra hne
  have hpos : 0 < ownerCount (removeChan m q.1) u := Nat.pos_of_ne_zero hne
  obtain ⟨p, hpmem, hpp⟩ := List.countP_pos_iff.mp hpos
  have hpm : p ∈ m := (List.mem_filter.mp hpmem).1
  have hkey : p.1 ≠ q.1 := by
    have := (List.mem_filter.mp hpmem).2
    simpa using this
  have hqm : q ∈ m := List.mem_of_find?_eq_some hfind
  have hqp := List.find?_some hfind
  have hne' : p ≠ q := fun hpq => hkey (by rw [hpq])
  have h2 : 2 ≤ m.countP (fun p => p.2.owner_id == u) :=
    two_le_countP _ hpm hqm hne' hpp hqp
  unfold ownerCount at hu
  omega

theorem ownerCount_insertChan (m : List (Nat × ChannelInfo)) (cid : Nat)
    (info : ChannelInfo) (u : Nat) :
    ownerCount (insertChan m cid info) u =
      (if info.owner_id == u then 1 else 0) + ownerCount (removeChan m cid) u := by
  by_cases h : (info.owner_id == u) = true <;>
    simp [insertChan, ownerCount, List.countP_cons, h] <;> omega

theorem removeExisting_cases (s : BotState) (e : VoiceEvent) :
    ((removeExistingChannel s e).temp_channels = s.temp_channels ∧
      (user_has_channel s.temp_channels e.user = false ∨ e.delete_old_ok = false)) ∨
    (∃ q, s.temp_channels.find? (fun p => p.2.owner_id == e.user) = some q ∧
      (removeExistingChannel s e).temp_channels = removeChan s.temp_channels q.1) := by
  unfold removeExistingChannel
  split_ifs with hh hd
  · cases hg : get_user_channel s.temp_channels e.user with
    | none =>
      obtain ⟨q, hq⟩ := find_of_has hh
      have : get_user_channel s.temp_channels e.user = some q.1 := by
        unfold get_user_channel
        rw [hq]
        rfl
      rw [this] at hg
      cases hg
    | some ex =>
      obtain ⟨q, hq⟩ := find_of_has hh
      have hget : get_user_channel s.temp_channels e.user = some q.1 := by
        unfold get_user_channel
        rw [hq]
        rfl
      rw [hget] at hg
      have hex : q.1 = ex := by simpa using hg
      refine Or.inr ⟨q, hq, ?_⟩
      rw [hex]
  · refine Or.inl ⟨?_, Or.inr (by simpa using hd)⟩
    cases hg : get_user_channel s.temp_channels e.user <;> rfl
  · exact Or.inl ⟨rfl, Or.inl (by simpa using hh)⟩

theorem removeExisting_count_zero (s : BotState) (e : VoiceEvent)
    (hdel : e.delete_old_ok = true) (hu : OwnerUnique s.temp_channels) :
    ownerCount (removeExistingChannel s e).temp_channels e.user = 0 := by
  rcases removeExisting_cases s e with ⟨heq, hor⟩ | ⟨q, hq, heq⟩
  · rw [heq]
    rcases hor with hh | hd
    · exact ownerCount_zero_of_not_has hh
    · rw [hdel] at hd
      cases hd
  · rw [heq]
    exact ownerCount_remove_found hq (hu e.user)

theorem removeExisting_ownerUnique (s : BotState) (e : VoiceEvent)
    (hu : OwnerUnique s.temp_channels) :
    OwnerUnique (removeExistingChannel s e).temp_channels := by
  intro u
  have hle : ownerCount (removeExistingChannel s e).temp_channels u ≤
      ownerCount s.temp_channels u :=
    List.Sublist.countP_le _ (removeExisting_temp_sublist s e)
  exact le_trans hle (hu u)

theorem handle_join_cases (h : Handler) (e : VoiceEvent) (s : BotState) :
    (e.create_ok = true ∧ e.grant_ok = true ∧
      handle_creator_channel_join h e s =
        { temp_channels := insertChan (removeExistingChannel s e).temp_channels
            e.new_chan_id ⟨e.user, none⟩,
          live_tasks := (removeExistingChannel s e).live_tasks,
          next_task := (removeExistingChannel s e).next_task,
          platform_channels := e.new_chan_id :: (removeExistingChannel s e).platform_channels,
          moves := (e.user, e.new_chan_id) :: (removeExistingChannel s e).moves }) ∨
    ((e.create_ok = false ∨ e.grant_ok = false) ∧
      handle_creator_channel_join h e s =
        { removeExistingChannel s e with
          platform_channels :=
            if e.create_ok then e.new_chan_id :: (removeExistingChannel s e).platform_channels
            else (removeExistingChannel s e).platform_channels }) := by
  by_cases hc : e.create_ok = true
  · by_cases hg : e.grant_ok = true
    · refine Or.inl ⟨hc, hg, ?_⟩
      simp [handle_creator_channel_join, create_temp_channel, hc, hg]
    · refine Or.inr ⟨Or.inr (by simpa using hg), ?_⟩
      simp [handle_creator_channel_join, create_temp_channel, hc, hg]
  · refine Or.inr ⟨Or.inl (by simpa using hc), ?_⟩
    simp [handle_creator_channel_join, create_temp_channel, hc]

theorem handle_join_ownerUnique (h : Handler) (e : VoiceEvent) (s : BotState)
    (hdel : e.delete_old_ok = true) (hu : OwnerUnique s.temp_channels) :
    OwnerUnique (handle_creator_channel_join h e s).temp_channels := by
  have h0 : ownerCount (removeExistingChannel s e).temp_channels e.user = 0 :=
    removeExisting_count_zero s e hdel hu
  have h1 : OwnerUnique (removeExistingChannel s e).temp_channels :=
    removeExisting_ownerUnique s e hu
  rcases handle_join_cases h e s with ⟨hc, hg, heq⟩ | ⟨hor, heq⟩
  · rw [heq]
    show OwnerUnique (insertChan (removeExistingChannel s e).temp_channels
      e.new_chan_id ⟨e.user, none⟩)
    intro u
    rw [ownerCount_insertChan]
    have hfil : ownerCount
        (removeChan (removeExistingChannel s e).temp_channels e.new_chan_id) u ≤
        ownerCount (removeExistingChannel s e).temp_channels u :=
      countP_filter_le _ _ _
    by_cases hlu : (e.user == u) = true
    · have ho : (if (⟨e.user, none⟩ : ChannelInfo).owner_id == u then (1 : Nat) else 0) = 1 := by
        simp [hlu]
      rw [ho]
      have huu : e.user = u := by simpa using hlu
      subst huu
      omega
    · have hz : (if (⟨e.user, none⟩ : ChannelInfo).owner_id == u then (1 : Nat) else 0) = 0 := by
        simp [hlu]
      rw [hz]
      have := h1 u
      omega
  · rw [heq]
    exact h1

theorem update_ownerUnique (h : Handler) (s : BotState) (e : VoiceEvent)
    (hdel : e.delete_old_ok = true) (hu : OwnerUnique s.temp_channels) :
    OwnerUnique (voice_state_update h s e).temp_channels := by
  have h1 : OwnerUnique (phase1 h e s).1.temp_channels := by
    rcases phase1_state_cases h e s with heq | heq <;> rw [heq]
    · exact hu
    · exact handle_join_ownerUnique h e s hdel hu
  have h2 : OwnerUnique (phase2 h e (phase1 h e s).1).1.temp_channels := by
    intro u
    rw [ownerCount_eq_of_map (phase2_frame h e (phase1 h e s).1).1 u]
    exact h1 u
  have h3 : OwnerUnique (phase3 h e (phase2 h e (phase1 h e s).1).1).temp_channels := by
    intro u
    rw [ownerCount_eq_of_map (phase3_frame h e (phase2 h e (phase1 h e s).1).1).1 u]
    exact h2 u
  unfold voice_state_update
  split_ifs <;> first | exact h1 | exact h2 | exact h3

/-! ### Deletion-scheduler invariant preservation -/

theorem mem_setTask {m : List (Nat × ChannelInfo)} {c : Nat} {t : Option Nat}
    {p : Nat × ChannelInfo} (hp : p ∈ setTask m c t) :
    ∃ p0 ∈ m, p = (if p0.1 == c then (p0.1, ⟨p0.2.owner_id, t⟩) else p0) := by
  unfold setTask at hp
  obtain ⟨p0, hp0, heq⟩ := List.mem_map.mp hp
  exact ⟨p0, hp0, heq.symm⟩

theorem setTask_fun_fst (c : Nat) (t : Option Nat) (p0 : Nat × ChannelInfo) :
    (if p0.1 == c then ((p0.1, ⟨p0.2.owner_id, t⟩) : Nat × ChannelInfo) else p0).1 = p0.1 := by
  by_cases h : (p0.1 == c) = true <;> simp [h]

theorem scheduleFresh_no_live_for (s : BotState) (ocid : Nat) (info : ChannelInfo)
    (hl : lookupChan s.temp_channels ocid = some info)
    (hmatch : liveMatchesRecord s) :
    ∀ t ∈ (abortOpt s info.delete_task).live_tasks, t.chan ≠ ocid := by
  intro t ht hchan
  have htm : t ∈ s.live_tasks := (abortOpt_live_sublist s info.delete_task).subset ht
  have hrec : info.delete_task = some t.id :=
    hmatch t htm (ocid, info) (mem_of_lookupChan hl) hchan
  rw [hrec] at ht
  simp only [abortOpt, abortTask] at ht
  have := (List.mem_filter.mp ht).2
  simp at this

theorem scheduleFresh_taskInv (s : BotState) (ocid : Nat) (info : ChannelInfo)
    (hl : lookupChan s.temp_channels ocid = some info)
    (hinv : TaskInv s) : TaskInv (scheduleFresh s ocid info) := by
  obtain ⟨hpw, hmatch, hnd⟩ := hinv
  have hA := scheduleFresh_no_live_for s ocid info hl hmatch
  rw [scheduleFresh_eq]
  refine ⟨?_, ?_, ?_⟩
  · show List.Pairwise _
      (⟨s.next_task, ocid, grace_period⟩ :: (abortOpt s info.delete_task).live_tasks)
    rw [List.pairwise_cons]
    refine ⟨fun u hu hcu => hA u hu hcu.symm, ?_⟩
    exact List.Pairwise.sublist (abortOpt_live_sublist s info.delete_task) hpw
  · intro t ht p hp hchan
    obtain ⟨p0, hp0, hpe⟩ := mem_setTask hp
    have hfst : p.1 = p0.1 := by rw [hpe]; exact setTask_fun_fst _ _ _
    rcases List.mem_cons.mp ht with rfl | ht1
    · have hpo : p0.1 = ocid := by rw [← hfst, ← hchan]
      have hpeq : p = (p0.1, ⟨p0.2.owner_id, some s.next_task⟩) := by
        rw [hpe, if_pos (by simpa using hpo)]
      rw [hpeq]
    · have hne := hA t ht1
      have htm : t ∈ s.live_tasks := (abortOpt_live_sublist _ _).subset ht1
      have hpo : p0.1 ≠ ocid := by
        intro hq
        exact hne (by rw [hchan, hfst, hq])
      have hpp0 : p = p0 := by rw [hpe, if_neg (by simpa using hpo)]
      rw [hpp0]
      exact hmatch t htm p0 hp0 (by rw [hchan, hfst])
  · show keysNodup _
    unfold keysNodup
    show ((setTask s.temp_channels ocid (some s.next_task)).map Prod.fst).Nodup
    rw [map_fst_setTask]
    exact hnd

theorem phase2_taskInv (h : Handler) (e : VoiceEvent) (s : BotState)
    (hinv : TaskInv s) : TaskInv (phase2 h e s).1 := by
  rcases phase2_state_cases h e s with heq | ⟨ocid, info, _, hl, heq⟩ <;> rw [heq]
  · exact hinv
  · exact scheduleFresh_taskInv s ocid info hl hinv

theorem phase3_taskInv (h : Handler) (e : VoiceEvent) (s : BotState)
    (hinv : TaskInv s) : TaskInv (phase3 h e s) := by
  obtain ⟨hpw, hmatch, hnd⟩ := hinv
  rcases phase3_state_cases h e s with heq | ⟨ncid, info, tid, hn, hl, hd, heq⟩ <;> rw [heq]
  · exact ⟨hpw, hmatch, hnd⟩
  · refine ⟨?_, ?_, ?_⟩
    · show List.Pairwise _ (s.live_tasks.filter (fun t => !(t.id == tid)))
      exact List.Pairwise.sublist (List.filter_sublist _) hpw
    · intro t ht p hp hchan
      have htm : t ∈ s.live_tasks := (List.mem_filter.mp ht).1
      have htid : t.id ≠ tid := by simpa using (List.mem_filter.mp ht).2
      obtain ⟨p0, hp0, hpe⟩ := mem_setTask hp
      have hfst : p.1 = p0.1 := by rw [hpe]; exact setTask_fun_fst _ _ _
      by_cases hpo : p0.1 = ncid
      · have hlp0 : lookupChan s.temp_channels p0.1 = some p0.2 :=
          lookupChan_of_mem_nodup hnd hp0
        rw [hpo, hl] at hlp0
        have hp02 : p0.2 = info := by
          injection hlp0 with hval
          exact hval.symm
        have hrec : p0.2.delete_task = some t.id :=
          hmatch t htm p0 hp0 (by rw [hchan, hfst])
        rw [hp02, hd] at hrec
        have hvt : tid = t.id := Option.some.inj hrec
        exact absurd hvt.symm htid
      · have hpp0 : p = p0 := by rw [hpe, if_neg (by simpa using hpo)]
        rw [hpp0]
        exact hmatch t htm p0 hp0 (by rw [hchan, hfst])
    · show keysNodup _
      unfold keysNodup
      show ((setTask s.temp_channels ncid none).map Prod.fst).Nodup
      rw [map_fst_setTask]
      exact hnd

theorem removeExisting_taskInv (s : BotState) (e : VoiceEvent)
    (hinv : TaskInv s) : TaskInv (removeExistingChannel s e) := by
  obtain ⟨hpw, hmatch, hnd⟩ := hinv
  refine ⟨?_, ?_, ?_⟩
  · show List.Pairwise _ (removeExistingChannel s e).live_tasks
    rw [removeExisting_live]
    exact hpw
  · intro t ht p hp hchan
    rw [removeExisting_live] at ht
    have hpm : p ∈ s.temp_channels := (removeExisting_temp_sublist s e).subset hp
    exact hmatch t ht p hpm hchan
  · show keysNodup _
    unfold keysNodup
    exact List.Nodup.sublist
      (List.Sublist.map _ (removeExisting_temp_sublist s e)) hnd

theorem handle_join_taskInv (h : Handler) (e : VoiceEvent) (s : BotState)
    (hinv : TaskInv s) (hf : FreshId s e) :
    TaskInv (handle_creator_channel_join h e s) := by
  obtain ⟨hpw, hmatch, hnd⟩ := removeExisting_taskInv s e hinv
  rcases handle_join_cases h e s with ⟨hc, hg, heq⟩ | ⟨hor, heq⟩ <;> rw [heq]
  · refine ⟨?_, ?_, ?_⟩
    · show List.Pairwise _ (removeExistingChannel s e).live_tasks
      exact hpw
    · intro t ht p hp hchan
      have htm : t ∈ s.live_tasks := by
        have := ht
        rw [removeExisting_live] at this
        exact this
      rcases List.mem_cons.mp hp with rfl | hp'
      · exact absurd (by exact hchan) (hf t htm)
      · have hpm : p ∈ (removeExistingChannel s e).temp_channels :=
          (List.filter_sublist _).subset hp'
        exact hmatch t ht p hpm hchan
    · show keysNodup _
      unfold keysNodup
      show (((e.new_chan_id, ⟨e.user, none⟩) ::
        removeChan (removeExistingChannel s e).temp_channels e.new_chan_id).map
          Prod.fst).Nodup
      rw [List.map_cons, List.nodup_cons]
      refine ⟨?_, ?_⟩
      · intro hmem
        obtain ⟨p, hp, hpfst⟩ := List.mem_map.mp hmem
        have := (List.mem_filter.mp hp).2
        simp [hpfst] at this
      · exact List.Nodup.sublist (List.Sublist.map _ (List.filter_sublist _)) hnd
  · exact ⟨hpw, hmatch, hnd⟩

theorem phase1_taskInv (h : Handler) (e : VoiceEvent) (s : BotState)
    (hinv : TaskInv s) (hf : FreshId s e) : TaskInv (phase1 h e s).1 := by
  rcases phase1_state_cases h e s with heq | heq <;> rw [heq]
  · exact hinv
  · exact handle_join_taskInv h e s hinv hf

theorem run_taskInv (s : BotState) (cid tid : Nat) (ok : Bool)
    (hinv : TaskInv s) : TaskInv (run_deletion_task s cid tid ok) := by
  obtain ⟨hpw, hmatch, hnd⟩ := hinv
  cases ok
  · refine ⟨?_, ?_, ?_⟩
    · show List.Pairwise _ (s.live_tasks.filter (fun t => !(t.id == tid)))
      exact List.Pairwise.sublist (List.filter_sublist _) hpw
    · intro t ht p hp hchan
      have htm : t ∈ s.live_tasks := (List.mem_filter.mp ht).1
      exact hmatch t htm p hp hchan
    · exact hnd
  · refine ⟨?_, ?_, ?_⟩
    · show List.Pairwise _ (s.live_tasks.filter (fun t => !(t.id == tid)))
      exact List.Pairwise.sublist (List.filter_sublist _) hpw
    · intro t ht p hp hchan
      have htm : t ∈ s.live_tasks := (List.mem_filter.mp ht).1
      have hpm : p ∈ s.temp_channels := (List.filter_sublist _).subset hp
      exact hmatch t htm p hpm hchan
    · show keysNodup _
      unfold keysNodup
      exact List.Nodup.sublist (List.Sublist.map _ (List.filter_sublist _)) hnd

theorem update_taskInv (h : Handler) (s : BotState) (e : VoiceEvent)
    (hinv : TaskInv s) (hf : FreshId s e) : TaskInv (voice_state_update h s e) := by
  have h1 := phase1_taskInv h e s hinv hf
  have h2 := phase2_taskInv h e (phase1 h e s).1 h1
  have h3 := phase3_taskInv h e (phase2 h e (phase1 h e s).1).1 h2
  unfold voice_state_update
  split_ifs <;> first | exact h1 | exact h2 | exact h3

/-! ### Claim theorems -/

/-- Claim C1 (counterexample): two join-creator notifications by user 7,
where the second one's platform delete of the first channel fails, leave
the registry with two records owned by user 7 — the claimed single-owner
invariant does not hold on the code, because the old record is removed
only when the platform delete succeeds. -/
theorem single_ownership_violation :
    ¬ OwnerUnique (runEvents hC sEmpty [eJoin1, eJoin2]).temp_channels := by
  intro hu
  have h7 := hu 7
  revert h7
  decide

/-- Claim C1 (amended): along every notification sequence in which each
platform delete of a previously owned channel succeeds, the registry
holds at most one record per owner at every observation point. -/
theorem single_ownership_of_successful_deletes (h : Handler) (s : BotState)
    (es : List VoiceEvent) (hdel : ∀ e ∈ es, e.delete_old_ok = true)
    (hu : OwnerUnique s.temp_channels) :
    OwnerUnique (runEvents h s es).temp_channels := by
  induction es generalizing s with
  | nil => exact hu
  | cons e es ih =>
    exact ih (voice_state_update h s e)
      (fun e' he' => hdel e' (List.mem_cons_of_mem e he'))
      (update_ownerUnique h s e (hdel e (List.mem_cons_self e es)) hu)

/-- Witness for the amended claim C1 at a concrete input. -/
theorem single_ownership_of_successful_deletes_witness :
    ownerCount (runEvents hC sEmpty [eJoin1, eJoin1]).temp_channels 7 ≤ 1 :=
  single_ownership_of_successful_deletes hC sEmpty [eJoin1, eJoin1]
    (by decide) (fun _ => Nat.zero_le 1) 7

/-- Claim C2 (counterexample): on a notification whose join-creator
phase fails because the guild is not cached, the dispatcher stops and
leaves the state untouched, whereas running all three phases as the
spec claims would schedule a deletion for the emptied tracked channel 5
— so a phase-1 failure does prevent the remaining phases from running. -/
theorem all_phases_still_run_violation :
    voice_state_update hC sA eC2 ≠ spec_run_all_phases hC sA eC2 ∧
    voice_state_update hC sA eC2 = sA := by
  constructor
  · decide
  · decide

/-- Claim C2 (amended): the three phases are attempted in order
1 → 2 → 3, but a resolution failure inside phase 1 (missing guild id,
guild not cached, bot member fetch error, missing manage-channels
permission, or missing member data) aborts the whole notification with
the state unchanged — phases 2 and 3 do not run — and inside phase 2 a
guild-not-cached or channel-not-found failure likewise aborts phase 3
with the state unchanged.  Only when no early return fires do all three
phases run. -/
theorem dispatcher_phase_order_with_aborts (h : Handler) (e : VoiceEvent) (s : BotState) :
    voice_state_update h s e =
      (if (phase1 h e s).2 then (phase1 h e s).1
       else if (phase2 h e (phase1 h e s).1).2 then (phase2 h e (phase1 h e s).1).1
       else spec_run_all_phases h s e) ∧
    ((phase1 h e s).2 = true → (phase1 h e s).1 = s) ∧
    ((phase1 h e s).2 = true ↔ e.new_channel = some h.creator_channel_id ∧
      ¬(e.guild_present = true ∧ e.guild_cached = true ∧ e.bot_member_ok = true ∧
        (e.perms_resolvable && e.has_manage) = true ∧ e.member_present = true)) ∧
    ((phase2 h e s).2 = true → (phase2 h e s).1 = s) := by
  refine ⟨rfl, ?_, ?_, ?_⟩
  · cases hn : e.new_channel with
    | none => simp [phase1, hn]
    | some c =>
      simp only [phase1, hn]
      split_ifs <;> simp
  · cases hn : e.new_channel with
    | none => simp [phase1, hn]
    | some c =>
      simp only [phase1, hn]
      split_ifs <;> simp_all
  · cases ho : e.old_channel with
    | none => simp [phase2, ho]
    | some ocid =>
      cases hl : lookupChan s.temp_channels ocid with
      | none => simp [phase2, ho, hl]
      | some info =>
        simp only [phase2, ho, hl]
        split_ifs <;> simp

/-- Witness for the amended claim C2 at a concrete input. -/
theorem dispatcher_phase_order_witness :
    (phase1 hC eC2 sA).2 = true ∧ (phase1 hC eC2 sA).1 = sA :=
  ⟨by decide, (dispatcher_phase_order_with_aborts hC eC2 sA).2.1 (by decide)⟩

/-- Claim C3: both transition kinds — dispatching a notification (with
fresh platform channel ids) and a deletion task firing — preserve the
scheduler invariant: at most one live countdown per channel (in the
leave-tracked phase the stored task handle is aborted before a fresh
countdown is spawned), every live countdown for a tracked channel is
the one recorded in its registry record, and registry keys stay
unique. -/
theorem at_most_one_live_countdown (h : Handler) (s : BotState) (e : VoiceEvent)
    (cid tid : Nat) (ok : Bool) (hinv : TaskInv s) (hf : FreshId s e) :
    TaskInv (voice_state_update h s e) ∧ TaskInv (run_deletion_task s cid tid ok) :=
  ⟨update_taskInv h s e hinv hf, run_taskInv s cid tid ok hinv⟩

/-- Witness for claim C3 at a concrete input. -/
theorem at_most_one_live_countdown_witness :
    TaskInv (voice_state_update hC sA eLeave) ∧ TaskInv (run_deletion_task sA 5 0 true) :=
  at_most_one_live_countdown hC sA eLeave 5 0 true
    ⟨List.Pairwise.nil, fun t ht => absurd ht (List.not_mem_nil t),
     by unfold keysNodup; decide⟩
    (fun t ht => absurd ht (List.not_mem_nil t))

/-- Claim C4: a scheduled deletion task sleeps the fixed grace period
(5 time-units) for its channel; when it fires with a successful delete
it removes the channel's record from the registry and the channel from
the platform; when the delete fails it leaves the registry and the
platform untouched (only the task itself completes). -/
theorem deletion_grace_period_and_outcome (s : BotState) (cid tid : Nat) :
    (schedule_channel_deletion s cid).2 = s.next_task ∧
    (⟨s.next_task, cid, grace_period⟩ : TaskRec) ∈
      (schedule_channel_deletion s cid).1.live_tasks ∧
    grace_period = 5 ∧
    (run_deletion_task s cid tid true).temp_channels = removeChan s.temp_channels cid ∧
    (run_deletion_task s cid tid true).platform_channels =
      s.platform_channels.filter (fun c => !(c == cid)) ∧
    (run_deletion_task s cid tid false).temp_channels = s.temp_channels ∧
    (run_deletion_task s cid tid false).platform_channels = s.platform_channels :=
  ⟨rfl, List.mem_cons_self _ _, rfl, rfl, rfl, rfl, rfl⟩

/-- Claim C5: the access overlay applied at creation is exactly: the
everyone role is denied connect and relocate-members and allowed
nothing; the owner is allowed connect, channel management, mute and
deafen but not relocate-members on the new channel; the bot is allowed
connect, relocate-members and channel management; and the single extra
grant gives the owner relocate-members scoped to the waiting-room
channel only. -/
theorem hardened_access_overlay (h : Handler) (g o b : Nat) :
    create_temp_channel_requests h g o b =
      (temp_channel_overwrites g o b, [(h.waiting_room_id, waiting_room_overwrite o)]) ∧
    (everyone_overwrite g).kind = OverwriteKind.role g ∧
    (everyone_overwrite g).allow = 0 ∧
    allows (everyone_overwrite g).deny CONNECT ∧
    allows (everyone_overwrite g).deny MOVE_MEMBERS ∧
    (owner_overwrite o).kind = OverwriteKind.member o ∧
    (owner_overwrite o).deny = 0 ∧
    allows (owner_overwrite o).allow CONNECT ∧
    allows (owner_overwrite o).allow MANAGE_CHANNELS ∧
    allows (owner_overwrite o).allow MUTE_MEMBERS ∧
    allows (owner_overwrite o).allow DEAFEN_MEMBERS ∧
    ¬ allows (owner_overwrite o).allow MOVE_MEMBERS ∧
    (bot_overwrite b).kind = OverwriteKind.member b ∧
    allows (bot_overwrite b).allow CONNECT ∧
    allows (bot_overwrite b).allow MOVE_MEMBERS ∧
    allows (bot_overwrite b).allow MANAGE_CHANNELS ∧
    (waiting_room_overwrite o).kind = OverwriteKind.member o ∧
    (waiting_room_overwrite o).deny = 0 ∧
    allows (waiting_room_overwrite o).allow MOVE_MEMBERS ∧
    ¬ allows (waiting_room_overwrite o).allow MANAGE_CHANNELS := by
  refine ⟨rfl, rfl, rfl, ?_, ?_, rfl, rfl, ?_, ?_, ?_, ?_, ?_, rfl, ?_, ?_, ?_,
    rfl, rfl, ?_, ?_⟩ <;>
  · simp only [allows, everyone_overwrite, owner_overwrite, bot_overwrite,
      waiting_room_overwrite]
    decide

/-- Witness for claim C5 at a concrete input. -/
theorem hardened_access_overlay_witness :
    create_temp_channel_requests hC 10 7 8 =
      (temp_channel_overwrites 10 7 8, [(200, waiting_room_overwrite 7)]) :=
  (hardened_access_overlay hC 10 7 8).1

/-- Claim C6: when the permission gate denies (the bot's effective
permissions lack channel management) on a creator-channel join whose
earlier resolution steps succeed, the dispatcher performs no channel
creation and leaves the whole state — registry included — unchanged,
for every number of repetitions of the event. -/
theorem gate_denied_registry_unchanged (h : Handler) (s : BotState) (e : VoiceEvent)
    (h1 : e.new_channel = some h.creator_channel_id)
    (h2 : e.guild_present = true) (h3 : e.guild_cached = true)
    (h4 : e.bot_member_ok = true)
    (h5 : (e.perms_resolvable && e.has_manage) = false) :
    ∀ n : Nat, (fun st => voice_state_update h st e)^[n] s = s := by
  have hstep : ∀ st : BotState, voice_state_update h st e = st := by
    intro st
    have hp1 : phase1 h e st = (st, true) := by
      simp only [phase1, h1]
      rw [if_pos (by simp), if_pos h2, if_pos h3, if_pos h4, if_neg (by simp [h5])]
    unfold voice_state_update
    rw [hp1]
    simp
  intro n
  induction n with
  | zero => rfl
  | succ k ih =>
    rw [Function.iterate_succ_apply, hstep, ih]

/-- Witness for claim C6 at a concrete input. -/
theorem gate_denied_registry_unchanged_witness :
    (fun st => voice_state_update hC st eGateDeny)^[3] sA = sA :=
  gate_denied_registry_unchanged hC sA eGateDeny rfl rfl rfl rfl rfl 3

/-- Claim C7: when the notification's new channel is tracked and its
record stores a pending deletion task, the join-tracked phase aborts
that task (it is no longer live) and the record persists in the
registry with an empty pending-deletion field; no key is added or
removed. -/
theorem join_tracked_cancels_pending_deletion (h : Handler) (e : VoiceEvent)
    (s : BotState) (ncid tid : Nat) (info : ChannelInfo)
    (h1 : e.new_channel = some ncid)
    (h2 : lookupChan s.temp_channels ncid = some info)
    (h3 : info.delete_task = some tid) :
    lookupChan (phase3 h e s).temp_channels ncid = some ⟨info.owner_id, none⟩ ∧
    (∀ t ∈ (phase3 h e s).live_tasks, t.id ≠ tid) ∧
    (phase3 h e s).temp_channels.map Prod.fst = s.temp_channels.map Prod.fst := by
  have heq : phase3 h e s =
      { temp_channels := setTask s.temp_channels ncid none,
        live_tasks := s.live_tasks.filter (fun t => !(t.id == tid)),
        next_task := s.next_task,
        platform_channels := s.platform_channels,
        moves := s.moves } := by
    simp [phase3, h1, h2, h3, abortTask]
  rw [heq]
  refine ⟨?_, ?_, ?_⟩
  · show lookupChan (setTask s.temp_channels ncid none) ncid = some ⟨info.owner_id, none⟩
    rw [lookupChan_setTask, h2]
    rfl
  · intro t ht
    have := (List.mem_filter.mp ht).2
    simpa using this
  · show (setTask s.temp_channels ncid none).map Prod.fst = s.temp_channels.map Prod.fst
    exact map_fst_setTask _ _ _

/-- Witness for claim C7 at a concrete input. -/
theorem join_tracked_cancels_pending_deletion_witness :
    lookupChan (phase3 hC eRejoin sB).temp_channels 5 = some ⟨7, none⟩ :=
  (join_tracked_cancels_pending_deletion hC eRejoin sB 5 0 ⟨7, some 0⟩ rfl rfl rfl).1

/-- Claim C8: `check_permissions` is a total function (it never raises)
that returns `false` on each resolution failure — guild not cached, bot
member fetch error, permissions not computable — and returns `true`
exactly when the resolved effective permission set includes the
manage-channels bit. -/
theorem check_permissions_contract (c : PermCtx) :
    (c.guild_cached = false → check_permissions c = false) ∧
    (c.member_ok = false → check_permissions c = false) ∧
    (c.perms = none → check_permissions c = false) ∧
    (check_permissions c = true ↔
      c.guild_cached = true ∧ c.member_ok = true ∧
      ∃ p : Nat, c.perms = some p ∧ p &&& MANAGE_CHANNELS ≠ 0) := by
  obtain ⟨gc, mo, pm⟩ := c
  cases gc <;> cases mo <;> cases pm <;>
    simp [check_permissions, manage_channels_bit, bne_iff_ne]

/-- Witness for claim C8 at concrete inputs. -/
theorem check_permissions_contract_witness :
    check_permissions ⟨false, true, some 16⟩ = false ∧
    check_permissions ⟨true, true, some 16⟩ = true :=
  ⟨(check_permissions_contract ⟨false, true, some 16⟩).1 rfl,
   (check_permissions_contract ⟨true, true, some 16⟩).2.2.2.mpr
     ⟨rfl, rfl, 16, rfl, by decide⟩⟩

/-- Claim C9: when the voice-channel create succeeds but the subsequent
waiting-room grant fails, `create_temp_channel` returns an error, and
`handle_creator_channel_join` inserts no registry record for the new
channel and issues no relocation — yet the created channel does exist
on the platform, untracked. -/
theorem grant_failure_leaves_channel_untracked (h : Handler) (e : VoiceEvent)
    (s : BotState) (hc : e.create_ok = true) (hg : e.grant_ok = false)
    (hfresh : lookupChan s.temp_channels e.new_chan_id = none) :
    (∀ st : BotState, (create_temp_channel h e st).2 = CreateResult.err) ∧
    lookupChan (handle_creator_channel_join h e s).temp_channels e.new_chan_id = none ∧
    e.new_chan_id ∈ (handle_creator_channel_join h e s).platform_channels ∧
    (handle_creator_channel_join h e s).moves = s.moves := by
  have hcr : ∀ st : BotState, (create_temp_channel h e st).2 = CreateResult.err := by
    intro st
    simp [create_temp_channel, hc, hg]
  rcases handle_join_cases h e s with ⟨_, hg', _⟩ | ⟨_, heq⟩
  · rw [hg'] at hg
    cases hg
  · rw [heq]
    refine ⟨hcr, ?_, ?_, ?_⟩
    · show lookupChan (removeExistingChannel s e).temp_channels e.new_chan_id = none
      rw [lookupChan_none_iff] at hfresh ⊢
      intro p hp
      exact hfresh p ((removeExisting_temp_sublist s e).subset hp)
    · show e.new_chan_id ∈
        (if e.create_ok then e.new_chan_id :: (removeExistingChannel s e).platform_channels
         else (removeExistingChannel s e).platform_channels)
      rw [if_pos hc]
      exact List.mem_cons_self _ _
    · show (removeExistingChannel s e).moves = s.moves
      exact removeExisting_moves s e

/-- Witness for claim C9 at a concrete input. -/
theorem grant_failure_leaves_channel_untracked_witness :
    lookupChan (handle_creator_channel_join hC eGrantFail sEmpty).temp_channels 3 = none ∧
    3 ∈ (handle_creator_channel_join hC eGrantFail sEmpty).platform_channels :=
  ⟨(grant_failure_leaves_channel_untracked hC eGrantFail sEmpty rfl rfl rfl).2.1,
   (grant_failure_leaves_channel_untracked hC eGrantFail sEmpty rfl rfl rfl).2.2.1⟩

/-- Claim C10: the leave-tracked and join-tracked phases preserve the
registry's keys and owners exactly (no record is inserted or removed
and no owner changes — only the pending-deletion field may change), and
they touch neither the platform channel set nor the relocation list. -/
theorem tracked_phases_only_touch_delete_task (h : Handler) (e : VoiceEvent)
    (s : BotState) :
    (phase2 h e s).1.temp_channels.map keyOwner = s.temp_channels.map keyOwner ∧
    (phase3 h e s).temp_channels.map keyOwner = s.temp_channels.map keyOwner ∧
    (phase2 h e s).1.platform_channels = s.platform_channels ∧
    (phase2 h e s).1.moves = s.moves ∧
    (phase3 h e s).platform_channels = s.platform_channels ∧
    (phase3 h e s).moves = s.moves :=
  ⟨(phase2_frame h e s).1, (phase3_frame h e s).1, (phase2_frame h e s).2.1,
   (phase2_frame h e s).2.2, (phase3_frame h e s).2.1, (phase3_frame h e s).2.2⟩

end TempVoice
